import Mathlib

/-!
Verification of the grid window manager of `src/renderer/landing-page.js`
(class `WindowManager`).  The manager keeps a registry of windows on an
8×8 logical grid; each window occupies an integer rectangle and windows
are pushed, shrunk or force-fitted so that they do not overlap the window
whose geometry last changed.

The JavaScript `Map` of windows is modelled as a `List WindowData` in
insertion order (a `Map` iterates in insertion order, and `Map.set` of a
fresh key appends).  All grid arithmetic is on `Int`, matching the integer
grid coordinates produced by the handlers.  DOM-only side effects
(`positionWindow`, `triggerContentResize`, element classes, z-index) have
no geometric content and are omitted; the `element`, `title`, `type`,
`terminalId` and `contentEl` fields are likewise irrelevant to geometry
and dropped from the record.
-/

/-- Value of `this.gridSize` in the `WindowManager` constructor. -/
def gridSize : Int := 8

/-- Value of `this.minWindowSize` in the `WindowManager` constructor. -/
def minWindowSize : Int := 2

/-- An integer grid rectangle `{x, y, w, h}`. -/
structure Rect where
  x : Int
  y : Int
  w : Int
  h : Int
deriving Repr, DecidableEq

/-- One entry of `this.windows` (geometry-relevant fields only). -/
structure WindowData where
  id : String
  gridX : Int
  gridY : Int
  gridW : Int
  gridH : Int
  minimized : Bool
deriving Repr, DecidableEq

/-- The rectangle `{x: gridX, y: gridY, w: gridW, h: gridH}` of a window. -/
def windowRect (wd : WindowData) : Rect :=
  ⟨wd.gridX, wd.gridY, wd.gridW, wd.gridH⟩

/-- Method `rectsOverlap(a, b)`. -/
def rectsOverlap (a b : Rect) : Bool :=
  !(decide (a.x + a.w ≤ b.x) || decide (b.x + b.w ≤ a.x) ||
    decide (a.y + a.h ≤ b.y) || decide (b.y + b.h ≤ a.y))

/-- Method `findConflicts(rect, excludeWindowId)`: ids of non-minimized,
non-excluded windows whose rectangle overlaps `rect`.  `excl = none`
models the JavaScript call with `null`. -/
def findConflicts (ws : List WindowData) (rect : Rect) (excl : Option String) : List String :=
  (ws.filter fun wd =>
    !(some wd.id == excl || wd.minimized) && rectsOverlap rect (windowRect wd)).map WindowData.id

/-- The candidate origins scanned by `findFreeSpot`, in loop order:
`y` outer from `0` to `gridSize - height`, `x` inner from `0` to
`gridSize - width`. -/
def freeSpotCandidates (width height : Int) : List (Int × Int) :=
  (List.range (gridSize - height + 1).toNat).flatMap fun y =>
    (List.range (gridSize - width + 1).toNat).map fun x => (Int.ofNat x, Int.ofNat y)

/-- The test of `findFreeSpot`'s inner loop: a `width × height` rectangle
at origin `c` has no conflicts. -/
def isFreeAt (ws : List WindowData) (width height : Int) (c : Int × Int) : Bool :=
  (findConflicts ws ⟨c.1, c.2, width, height⟩ none).isEmpty

/-- Method `findFreeSpot(width, height)`: first conflict-free origin in
loop order, or `{x: 0, y: 0}` when the scan finds none. -/
def findFreeSpot (ws : List WindowData) (width height : Int) : Int × Int :=
  ((freeSpotCandidates width height).find? (isFreeAt ws width height)).getD (0, 0)

/-- One entry of the `moves` array built by `pushWindowAway`. -/
structure Move where
  dir : String
  cost : Int
  x : Int
  y : Int
  w : Int
  h : Int
deriving Repr, DecidableEq

/-- The rectangle a move would give the pushed window. -/
def Move.rect (m : Move) : Rect := ⟨m.x, m.y, m.w, m.h⟩

/-- The "Push right" candidate of `pushWindowAway` (target rectangle `wr`,
priority rectangle `p`). -/
def pushRightMove (wr p : Rect) : Option Move :=
  let overlapLeft := p.x + p.w - wr.x
  if overlapLeft > 0 ∧ overlapLeft < wr.w + p.w then
    let newX := p.x + p.w
    let overflow := max 0 (newX + wr.w - gridSize)
    let newW := max minWindowSize (wr.w - overflow)
    if newX + newW ≤ gridSize then
      some ⟨"right", overlapLeft + overflow, newX, wr.y, newW, wr.h⟩
    else none
  else none

/-- The "Push left" candidate of `pushWindowAway`. -/
def pushLeftMove (wr p : Rect) : Option Move :=
  let overlapRight := wr.x + wr.w - p.x
  if overlapRight > 0 ∧ overlapRight < wr.w + p.w then
    let pushAmount := overlapRight
    let newX0 := wr.x - pushAmount
    let newX := if newX0 < 0 then 0 else newX0
    let newW := if newX0 < 0 then max minWindowSize (wr.w - (-newX0)) else wr.w
    if 0 ≤ newX ∧ newX + newW ≤ p.x then
      some ⟨"left", pushAmount, newX, wr.y, newW, wr.h⟩
    else none
  else none

/-- The "Push down" candidate of `pushWindowAway`. -/
def pushDownMove (wr p : Rect) : Option Move :=
  let overlapTop := p.y + p.h - wr.y
  if overlapTop > 0 ∧ overlapTop < wr.h + p.h then
    let newY := p.y + p.h
    let overflow := max 0 (newY + wr.h - gridSize)
    let newH := max minWindowSize (wr.h - overflow)
    if newY + newH ≤ gridSize then
      some ⟨"down", overlapTop + overflow, wr.x, newY, wr.w, newH⟩
    else none
  else none

/-- The "Push up" candidate of `pushWindowAway`. -/
def pushUpMove (wr p : Rect) : Option Move :=
  let overlapBottom := wr.y + wr.h - p.y
  if overlapBottom > 0 ∧ overlapBottom < wr.h + p.h then
    let pushAmount := overlapBottom
    let newY0 := wr.y - pushAmount
    let newY := if newY0 < 0 then 0 else newY0
    let newH := if newY0 < 0 then max minWindowSize (wr.h - (-newY0)) else wr.h
    if 0 ≤ newY ∧ newY + newH ≤ p.y then
      some ⟨"up", pushAmount, wr.x, newY, wr.w, newH⟩
    else none
  else none

/-- The `moves` array of `pushWindowAway`, in its construction order:
right, left, down, up. -/
def pushMoves (wr p : Rect) : List Move :=
  (pushRightMove wr p).toList ++ (pushLeftMove wr p).toList ++
  (pushDownMove wr p).toList ++ (pushUpMove wr p).toList

/-- Result of `moves.sort((a, b) => a.cost - b.cost); moves[0]`: the sort
is stable, so this is the first move of minimal cost. -/
def bestMove (ms : List Move) : Option Move :=
  ms.foldl (fun acc m =>
    match acc with
    | none => some m
    | some b => if m.cost < b.cost then some m else some b) none

/-- One fallback region tried by `forceFit`. -/
structure Space where
  x : Int
  y : Int
  maxW : Int
  maxH : Int
deriving Repr, DecidableEq

/-- The `spaces` array of `forceFit`, in order: right of priority, left of
priority, below priority, above priority. -/
def forceFitSpaces (p : Rect) : List Space :=
  [⟨p.x + p.w, 0, gridSize - (p.x + p.w), gridSize⟩,
   ⟨0, 0, p.x, gridSize⟩,
   ⟨0, p.y + p.h, gridSize, gridSize - (p.y + p.h)⟩,
   ⟨0, 0, gridSize, p.y⟩]

/-- The rectangle `forceFit` assigns to the target window (rectangle `wr`)
for the first qualifying region, or `none` when no region qualifies and
the window is left unchanged.  The width/height assignments mirror the
source's `min` followed by `max(minWindowSize, ·)`. -/
def forceFitRect (wr p : Rect) : Option Rect :=
  (forceFitSpaces p).findSome? fun s =>
    if minWindowSize ≤ s.maxW ∧ minWindowSize ≤ s.maxH then
      some ⟨s.x, s.y, max minWindowSize (min wr.w s.maxW),
            max minWindowSize (min wr.h s.maxH)⟩
    else none

/-- The rectangle `pushWindowAway` assigns to the target window: the
cheapest valid move if any, otherwise whatever `forceFit` assigns. -/
def pushTarget (wr p : Rect) : Option Rect :=
  match bestMove (pushMoves wr p) with
  | some m => some m.rect
  | none => forceFitRect wr p

/-- Overwrite a window's geometry fields, as the assignments
`windowData.gridX = ...` etc. do. -/
def applyRect (r : Rect) (wd : WindowData) : WindowData :=
  { wd with gridX := r.x, gridY := r.y, gridW := r.w, gridH := r.h }

/-- Assign rectangle `r` to the window with the given id. -/
def setRect (ws : List WindowData) (windowId : String) (r : Rect) : List WindowData :=
  ws.map fun wd => if wd.id == windowId then applyRect r wd else wd

/-- Method `pushWindowAway(windowId, priorityRect)`. -/
def pushWindowAway (ws : List WindowData) (windowId : String) (priorityRect : Rect) :
    List WindowData :=
  match ws.find? (fun wd => wd.id == windowId) with
  | none => ws
  | some wd =>
    match pushTarget (windowRect wd) priorityRect with
    | none => ws
    | some r => setRect ws windowId r

/-- Method `forceFit(windowId, priorityRect)` as a state transformer. -/
def forceFitState (ws : List WindowData) (windowId : String) (priorityRect : Rect) :
    List WindowData :=
  match ws.find? (fun wd => wd.id == windowId) with
  | none => ws
  | some wd =>
    match forceFitRect (windowRect wd) priorityRect with
    | none => ws
    | some r => setRect ws windowId r

/-- One iteration body of `resolveOverlaps`: push every conflicting window
away, in the order `findConflicts` produced them. -/
def passConflicts (ws : List WindowData) (p : Rect) (cids : List String) : List WindowData :=
  cids.foldl (fun acc cid => pushWindowAway acc cid p) ws

/-- The `while (iterations < maxIterations)` loop of `resolveOverlaps`,
with the remaining iteration count as fuel. -/
def resolveLoop (p : Rect) (priorityWindowId : String) :
    Nat → List WindowData → List WindowData
  | 0, ws => ws
  | n + 1, ws =>
    let conflicts := findConflicts ws p (some priorityWindowId)
    if conflicts.isEmpty then ws
    else resolveLoop p priorityWindowId n (passConflicts ws p conflicts)

/-- Value of `maxIterations` in `resolveOverlaps`. -/
def maxIterations : Nat := 50

/-- Method `resolveOverlaps(priorityWindowId)`: the priority rectangle is
captured once, before the loop. -/
def resolveOverlaps (ws : List WindowData) (priorityWindowId : String) : List WindowData :=
  match ws.find? (fun wd => wd.id == priorityWindowId) with
  | none => ws
  | some priorityData => resolveLoop (windowRect priorityData) priorityWindowId maxIterations ws

/-- The geometric step of `handleDrag` on one `mousemove`.  The pixel
arithmetic (`Math.round(deltaX / cellWidth)`) only produces the integer
grid deltas, so the step is parametrized by those deltas together with
the `dragState` start position captured at `startDrag`. -/
def handleDrag (ws : List WindowData) (windowId : String)
    (startGridX startGridY gridDeltaX gridDeltaY : Int) : List WindowData :=
  match ws.find? (fun wd => wd.id == windowId) with
  | none => ws
  | some wd =>
    let newGridX := max 0 (min (gridSize - wd.gridW) (startGridX + gridDeltaX))
    let newGridY := max 0 (min (gridSize - wd.gridH) (startGridY + gridDeltaY))
    if newGridX ≠ wd.gridX ∨ newGridY ≠ wd.gridY then
      resolveOverlaps (setRect ws windowId ⟨newGridX, newGridY, wd.gridW, wd.gridH⟩) windowId
    else ws

/-- Which edges a resize handle controls: `east`, `west`, `south`, `north`
stand for `direction.includes('e'/'w'/'s'/'n')`. -/
structure ResizeDir where
  east : Bool
  west : Bool
  south : Bool
  north : Bool
deriving Repr, DecidableEq

/-- The geometric step of `handleResize` on one `mousemove`, parametrized
by the integer grid deltas and the `resizeState` start rectangle captured
at `startResize`.  The four edge cases are applied in the source's order
e, w, s, n; `e` reads the not-yet-updated `newGridX` and `s` the
not-yet-updated `newGridY`, exactly as the source does. -/
def handleResize (ws : List WindowData) (windowId : String) (dir : ResizeDir)
    (startGridX startGridY startGridW startGridH gridDeltaX gridDeltaY : Int) :
    List WindowData :=
  match ws.find? (fun wd => wd.id == windowId) with
  | none => ws
  | some wd =>
    let newGridW1 :=
      if dir.east then
        max minWindowSize (min (gridSize - startGridX) (startGridW + gridDeltaX))
      else startGridW
    let newGridX2 :=
      if dir.west then
        startGridX + max (-startGridX) (min (startGridW - minWindowSize) gridDeltaX)
      else startGridX
    let newGridW2 :=
      if dir.west then
        startGridW - max (-startGridX) (min (startGridW - minWindowSize) gridDeltaX)
      else newGridW1
    let newGridH1 :=
      if dir.south then
        max minWindowSize (min (gridSize - startGridY) (startGridH + gridDeltaY))
      else startGridH
    let newGridY2 :=
      if dir.north then
        startGridY + max (-startGridY) (min (startGridH - minWindowSize) gridDeltaY)
      else startGridY
    let newGridH2 :=
      if dir.north then
        startGridH - max (-startGridY) (min (startGridH - minWindowSize) gridDeltaY)
      else newGridH1
    if newGridX2 ≠ wd.gridX ∨ newGridY2 ≠ wd.gridY ∨
        newGridW2 ≠ wd.gridW ∨ newGridH2 ≠ wd.gridH then
      resolveOverlaps (setRect ws windowId ⟨newGridX2, newGridY2, newGridW2, newGridH2⟩)
        windowId
    else ws

/-- The geometry-relevant `options` of `createWindow`. -/
structure CreateOptions where
  gridX : Option Int := none
  gridY : Option Int := none
  gridW : Option Int := none
  gridH : Option Int := none
deriving Repr, DecidableEq

/-- Method `createWindow(type, options)`.  The fresh id
(`window-${++this.windowIdCounter}` in the source) is passed in; `Map.set`
of a fresh key appends the record, then the new window gets priority in
`resolveOverlaps`. -/
def createWindow (ws : List WindowData) (id : String) (opts : CreateOptions) :
    List WindowData :=
  let width := opts.gridW.getD 4
  let height := opts.gridH.getD 4
  let pos :=
    match opts.gridX, opts.gridY with
    | some x, some y => (x, y)
    | ox, oy =>
      let freeSpot := findFreeSpot ws width height
      (ox.getD freeSpot.1, oy.getD freeSpot.2)
  let wd : WindowData :=
    { id := id, gridX := pos.1, gridY := pos.2, gridW := width, gridH := height,
      minimized := false }
  resolveOverlaps (ws ++ [wd]) id

/-- Method `minimizeWindow(windowId)` (geometry-relevant part). -/
def minimizeWindow (ws : List WindowData) (windowId : String) : List WindowData :=
  ws.map fun wd => if wd.id == windowId then { wd with minimized := true } else wd

/-- Method `restoreWindow(windowId)`: clears the flag, then the restored
window gets priority in `resolveOverlaps`. -/
def restoreWindow (ws : List WindowData) (windowId : String) : List WindowData :=
  match ws.find? (fun wd => wd.id == windowId) with
  | none => ws
  | some _ =>
    resolveOverlaps
      (ws.map fun wd => if wd.id == windowId then { wd with minimized := false } else wd)
      windowId

/-- Method `closeWindow(windowId)`: unconditional deletion from the map. -/
def closeWindow (ws : List WindowData) (windowId : String) : List WindowData :=
  ws.filter fun wd => !(wd.id == windowId)

/-- The spec's bounds invariant for a single rectangle. -/
def rectInBounds (r : Rect) : Prop :=
  0 ≤ r.x ∧ 0 ≤ r.y ∧ r.x + r.w ≤ gridSize ∧ r.y + r.h ≤ gridSize ∧
  minWindowSize ≤ r.w ∧ minWindowSize ≤ r.h

instance : DecidablePred rectInBounds := fun r => by
  unfold rectInBounds; infer_instance

/-- The spec's bounds invariant for every window of a registry state. -/
def InBounds (ws : List WindowData) : Prop :=
  ∀ wd ∈ ws, rectInBounds (windowRect wd)

instance : DecidablePred InBounds := fun ws => by
  unfold InBounds; infer_instance

/-- Claim C4: with exactly window A at `{0,0,4,4}` and window B at
`{2,0,4,4}`, both non-minimized, `resolveOverlaps("A")` pushes B right by
exactly the 2-cell overlap to `{4,0,4,4}`, width and height unchanged,
and leaves A unchanged. -/
theorem push_right_scenario :
    resolveOverlaps
        [⟨"A", 0, 0, 4, 4, false⟩, ⟨"B", 2, 0, 4, 4, false⟩] "A" =
      [⟨"A", 0, 0, 4, 4, false⟩, ⟨"B", 4, 0, 4, 4, false⟩] := by
  decide

/-- Claim C9: `rectsOverlap` returns true unless one rectangle is entirely
to the left, right, above or below the other; rectangles that merely touch
along an edge (shared boundary coordinate) do not overlap. -/
theorem rectsOverlap_half_open (a b : Rect) :
    (rectsOverlap a b = true ↔
      ¬(a.x + a.w ≤ b.x ∨ b.x + b.w ≤ a.x ∨ a.y + a.h ≤ b.y ∨ b.y + b.h ≤ a.y)) ∧
    (a.x + a.w = b.x → rectsOverlap a b = false) ∧
    (b.x + b.w = a.x → rectsOverlap a b = false) ∧
    (a.y + a.h = b.y → rectsOverlap a b = false) ∧
    (b.y + b.h = a.y → rectsOverlap a b = false) := by
  refine ⟨?_, ?_, ?_, ?_, ?_⟩ <;>
    simp [rectsOverlap, -not_or] <;> omega

/-- Witness for `rectsOverlap_half_open`: two 4×4 rectangles touching
along the vertical line `x = 4` do not overlap. -/
theorem rectsOverlap_half_open_witness :
    rectsOverlap ⟨0, 0, 4, 4⟩ ⟨4, 0, 4, 4⟩ = false :=
  (rectsOverlap_half_open ⟨0, 0, 4, 4⟩ ⟨4, 0, 4, 4⟩).2.1 (by decide)

/-- Counterexample to claim C1 as stated: starting from the pairwise
non-overlapping state A `{0,4,4,4}`, B `{2,0,4,4}`, C `{6,0,2,4}` (all
non-minimized), one drag step moving A to `{0,0}` pushes B right onto C:
after the operation completes, B `{4,0,4,4}` and C `{6,0,2,4}` overlap,
because `resolveOverlaps` only clears conflicts against the priority
window and never re-checks the pushed windows against each other. -/
theorem drag_step_leaves_nonpriority_overlap :
    (rectsOverlap (windowRect ⟨"A", 0, 4, 4, 4, false⟩) (windowRect ⟨"B", 2, 0, 4, 4, false⟩) = false ∧
     rectsOverlap (windowRect ⟨"A", 0, 4, 4, 4, false⟩) (windowRect ⟨"C", 6, 0, 2, 4, false⟩) = false ∧
     rectsOverlap (windowRect ⟨"B", 2, 0, 4, 4, false⟩) (windowRect ⟨"C", 6, 0, 2, 4, false⟩) = false) ∧
    handleDrag
        [⟨"A", 0, 4, 4, 4, false⟩, ⟨"B", 2, 0, 4, 4, false⟩, ⟨"C", 6, 0, 2, 4, false⟩]
        "A" 0 4 0 (-4) =
      [⟨"A", 0, 0, 4, 4, false⟩, ⟨"B", 4, 0, 4, 4, false⟩, ⟨"C", 6, 0, 2, 4, false⟩] ∧
    rectsOverlap (windowRect ⟨"B", 4, 0, 4, 4, false⟩) (windowRect ⟨"C", 6, 0, 2, 4, false⟩) = true := by
  refine ⟨⟨?_, ?_, ?_⟩, ?_, ?_⟩ <;> decide

/-- Counterexample to claim C2 as stated: `createWindow` performs no
validation of caller-supplied options, and `resolveOverlaps` never moves
the new (priority) window, so creating a window at explicit
`{gridX: 7, gridY: 0, gridW: 4, gridH: 4}` leaves a window with
`gridX + gridW = 11 > 8` in the map. -/
theorem createWindow_explicit_options_break_bounds :
    createWindow [] "window-1" ⟨some 7, some 0, some 4, some 4⟩ =
      [⟨"window-1", 7, 0, 4, 4, false⟩] ∧
    ¬ InBounds [⟨"window-1", 7, 0, 4, 4, false⟩] := by
  refine ⟨by decide, by decide⟩

/-- Counterexample to claim C6 as stated: with priority rectangle
`{0,0,7,4}` and target B `{6,2,2,4}`, the push-right candidate needs
`newX = 7` and the width that would fit is `8 - 7 = 1 < 2`, so the
push-right candidate is rejected — but `forceFit` is NOT invoked:
the push-down candidate is still valid and is applied
(B becomes `{6,4,2,4}`), whereas `forceFit` would have produced
`{0,4,2,4}`. -/
theorem push_right_reject_without_forceFit :
    rectsOverlap ⟨0, 0, 7, 4⟩ (windowRect ⟨"B", 6, 2, 2, 4, false⟩) = true ∧
    gridSize - (0 + 7) < minWindowSize ∧
    pushRightMove (windowRect ⟨"B", 6, 2, 2, 4, false⟩) ⟨0, 0, 7, 4⟩ = none ∧
    pushWindowAway [⟨"B", 6, 2, 2, 4, false⟩] "B" ⟨0, 0, 7, 4⟩ =
      [⟨"B", 6, 4, 2, 4, false⟩] ∧
    forceFitState [⟨"B", 6, 2, 2, 4, false⟩] "B" ⟨0, 0, 7, 4⟩ =
      [⟨"B", 0, 4, 2, 4, false⟩] ∧
    pushWindowAway [⟨"B", 6, 2, 2, 4, false⟩] "B" ⟨0, 0, 7, 4⟩ ≠
      forceFitState [⟨"B", 6, 2, 2, 4, false⟩] "B" ⟨0, 0, 7, 4⟩ := by
  refine ⟨?_, ?_, ?_, ?_, ?_, ?_⟩ <;> decide


/-- Unfolding of `rectsOverlap ... = false` into the four separation
disjuncts. -/
theorem rectsOverlap_eq_false_iff (a b : Rect) :
    rectsOverlap a b = false ↔
      (a.x + a.w ≤ b.x ∨ b.x + b.w ≤ a.x ∨ a.y + a.h ≤ b.y ∨ b.y + b.h ≤ a.y) := by
  simp [rectsOverlap]
  omega

/-- Unfolding of `rectsOverlap ... = true` into strict-intersection
inequalities. -/
theorem rectsOverlap_eq_true_iff (a b : Rect) :
    rectsOverlap a b = true ↔
      (b.x < a.x + a.w ∧ a.x < b.x + b.w ∧ b.y < a.y + a.h ∧ a.y < b.y + b.h) := by
  simp [rectsOverlap, or_assoc, not_or]
  omega

/-- Normal form of `forceFitRect`: the four fallback regions tried in
order, each guarded by its qualification test. -/
theorem forceFitRect_eq (wr p : Rect) :
    forceFitRect wr p =
      (if minWindowSize ≤ gridSize - (p.x + p.w) ∧ minWindowSize ≤ gridSize then
        some ⟨p.x + p.w, 0, max minWindowSize (min wr.w (gridSize - (p.x + p.w))),
              max minWindowSize (min wr.h gridSize)⟩
      else if minWindowSize ≤ p.x ∧ minWindowSize ≤ gridSize then
        some ⟨0, 0, max minWindowSize (min wr.w p.x),
              max minWindowSize (min wr.h gridSize)⟩
      else if minWindowSize ≤ gridSize ∧ minWindowSize ≤ gridSize - (p.y + p.h) then
        some ⟨0, p.y + p.h, max minWindowSize (min wr.w gridSize),
              max minWindowSize (min wr.h (gridSize - (p.y + p.h)))⟩
      else if minWindowSize ≤ gridSize ∧ minWindowSize ≤ p.y then
        some ⟨0, 0, max minWindowSize (min wr.w gridSize),
              max minWindowSize (min wr.h p.y)⟩
      else none) := by
  simp only [forceFitRect, forceFitSpaces, List.findSome?_cons, List.findSome?_nil]
  split_ifs <;> rfl

/-- A push-right candidate places the target flush against the priority
rectangle's right edge, so the two no longer overlap. -/
theorem pushRightMove_no_overlap (wr p : Rect) (m : Move)
    (h : pushRightMove wr p = some m) : rectsOverlap p m.rect = false := by
  simp only [pushRightMove] at h
  split_ifs at h
  cases h
  rw [rectsOverlap_eq_false_iff]
  simp only [Move.rect]
  omega

/-- A push-left candidate ends at or before the priority rectangle's left
edge, so the two no longer overlap. -/
theorem pushLeftMove_no_overlap (wr p : Rect) (m : Move)
    (h : pushLeftMove wr p = some m) : rectsOverlap p m.rect = false := by
  simp only [pushLeftMove] at h
  split_ifs at h <;>
    (cases h
     rw [rectsOverlap_eq_false_iff]
     simp only [Move.rect]
     omega)

/-- A push-down candidate places the target flush below the priority
rectangle, so the two no longer overlap. -/
theorem pushDownMove_no_overlap (wr p : Rect) (m : Move)
    (h : pushDownMove wr p = some m) : rectsOverlap p m.rect = false := by
  simp only [pushDownMove] at h
  split_ifs at h
  cases h
  rw [rectsOverlap_eq_false_iff]
  simp only [Move.rect]
  omega

/-- A push-up candidate ends at or above the priority rectangle's top
edge, so the two no longer overlap. -/
theorem pushUpMove_no_overlap (wr p : Rect) (m : Move)
    (h : pushUpMove wr p = some m) : rectsOverlap p m.rect = false := by
  simp only [pushUpMove] at h
  split_ifs at h <;>
    (cases h
     rw [rectsOverlap_eq_false_iff]
     simp only [Move.rect]
     omega)

/-- Every candidate in the `moves` array separates the target from the
priority rectangle. -/
theorem pushMoves_no_overlap (wr p : Rect) (m : Move) (h : m ∈ pushMoves wr p) :
    rectsOverlap p m.rect = false := by
  unfold pushMoves at h
  simp only [List.mem_append, Option.mem_toList, Option.mem_def] at h
  rcases h with ((h | h) | h) | h
  · exact pushRightMove_no_overlap wr p m h
  · exact pushLeftMove_no_overlap wr p m h
  · exact pushDownMove_no_overlap wr p m h
  · exact pushUpMove_no_overlap wr p m h

/-- The accumulator-passing form of `bestMove` only ever returns the
accumulator or a list element. -/
theorem bestMove_foldl_mem (ms : List Move) (acc : Option Move) (m : Move)
    (h : ms.foldl (fun acc m =>
        match acc with
        | none => some m
        | some b => if m.cost < b.cost then some m else some b) acc = some m) :
    acc = some m ∨ m ∈ ms := by
  induction ms generalizing acc with
  | nil => exact Or.inl h
  | cons b ms ih =>
    rcases ih _ h with hacc | hmem
    · match acc, hacc with
      | none, hacc =>
        cases hacc
        exact Or.inr (List.mem_cons_self _ _)
      | some a, hacc =>
        by_cases hc : b.cost < a.cost
        · simp only [hc, if_pos] at hacc
          cases hacc
          exact Or.inr (List.mem_cons_self _ _)
        · simp only [hc, if_neg, not_false_iff] at hacc
          exact Or.inl hacc
    · exact Or.inr (List.mem_cons_of_mem _ hmem)

/-- `bestMove` returns an element of its input list. -/
theorem bestMove_mem (ms : List Move) (m : Move) (h : bestMove ms = some m) : m ∈ ms := by
  rcases bestMove_foldl_mem ms none m h with hacc | hmem
  · cases hacc
  · exact hmem

/-- A placement made by `forceFit` lies inside one of the four fallback
regions, all of which are disjoint from the priority rectangle. -/
theorem forceFitRect_no_overlap (wr p : Rect) (r : Rect)
    (h : forceFitRect wr p = some r) : rectsOverlap p r = false := by
  rw [forceFitRect_eq] at h
  split_ifs at h <;>
    (cases h
     rw [rectsOverlap_eq_false_iff]
     simp only [gridSize, minWindowSize] at *
     omega)

/-- Claim C10: when `pushWindowAway` finds at least one valid candidate
and applies the cheapest one, the target's resulting rectangle does not
overlap the priority rectangle; likewise every placement actually made by
`forceFit` does not overlap the priority rectangle (proved without even
needing the claim's minimum-size and in-grid hypotheses). -/
theorem push_and_forceFit_separate (wr p : Rect) :
    (∀ m, bestMove (pushMoves wr p) = some m → rectsOverlap p m.rect = false) ∧
    (∀ r, forceFitRect wr p = some r → rectsOverlap p r = false) := by
  constructor
  · intro m h
    exact pushMoves_no_overlap wr p m (bestMove_mem _ m h)
  · intro r h
    exact forceFitRect_no_overlap wr p r h

/-- Witness for `push_and_forceFit_separate`: the cheapest move for target
`{2,0,4,4}` against priority `{0,0,4,4}` is the push right to `{4,0,4,4}`,
which does not overlap the priority; the forced fit of `{6,2,2,4}` against
priority `{0,0,7,4}` lands at `{0,4,2,4}`, which does not overlap it. -/
theorem push_and_forceFit_separate_witness :
    rectsOverlap ⟨0, 0, 4, 4⟩ (Move.rect ⟨"right", 2, 4, 0, 4, 4⟩) = false ∧
    rectsOverlap ⟨0, 0, 7, 4⟩ ⟨0, 4, 2, 4⟩ = false :=
  ⟨(push_and_forceFit_separate ⟨2, 0, 4, 4⟩ ⟨0, 0, 4, 4⟩).1 ⟨"right", 2, 4, 0, 4, 4⟩ (by decide),
   (push_and_forceFit_separate ⟨6, 2, 2, 4⟩ ⟨0, 0, 7, 4⟩).2 ⟨0, 4, 2, 4⟩ (by decide)⟩

/-- At least one of `forceFit`'s four fallback regions qualifies
(its extent meets `minWindowSize` in both axes). -/
def forceFitQualifies (p : Rect) : Prop :=
  ∃ s ∈ forceFitSpaces p, minWindowSize ≤ s.maxW ∧ minWindowSize ≤ s.maxH

instance : DecidablePred forceFitQualifies := fun p => by
  unfold forceFitQualifies; infer_instance

/-- When some fallback region qualifies, `forceFit` always places the
target. -/
theorem forceFitRect_isSome (p : Rect) (hq : forceFitQualifies p) (wr : Rect) :
    ∃ r, forceFitRect wr p = some r := by
  rw [forceFitRect_eq]
  split_ifs with h1 h2 h3 h4
  · exact ⟨_, rfl⟩
  · exact ⟨_, rfl⟩
  · exact ⟨_, rfl⟩
  · exact ⟨_, rfl⟩
  · exfalso
    rcases hq with ⟨s, hs, hW, hH⟩
    simp only [forceFitSpaces, List.mem_cons, List.not_mem_nil, or_false] at hs
    rcases hs with rfl | rfl | rfl | rfl <;>
      simp only [gridSize, minWindowSize] at * <;> omega

/-- When some fallback region qualifies, `pushWindowAway` always has a
rectangle to assign: the cheapest move, or the forced fit. -/
theorem pushTarget_isSome (p : Rect) (hq : forceFitQualifies p) (wr : Rect) :
    ∃ r, pushTarget wr p = some r := by
  unfold pushTarget
  cases hbm : bestMove (pushMoves wr p) with
  | some m => exact ⟨m.rect, rfl⟩
  | none => exact forceFitRect_isSome p hq wr

/-- Any rectangle `pushWindowAway` assigns is separated from the priority
rectangle. -/
theorem pushTarget_no_overlap (wr p : Rect) (r : Rect) (h : pushTarget wr p = some r) :
    rectsOverlap p r = false := by
  unfold pushTarget at h
  cases hbm : bestMove (pushMoves wr p) with
  | some m =>
    rw [hbm] at h
    cases h
    exact pushMoves_no_overlap wr p m (bestMove_mem _ m hbm)
  | none =>
    rw [hbm] at h
    exact forceFitRect_no_overlap wr p r h

/-- `applyRect` installs exactly the given rectangle. -/
theorem windowRect_applyRect (r : Rect) (wd : WindowData) :
    windowRect (applyRect r wd) = r := rfl

/-- `applyRect` does not touch the minimized flag. -/
theorem applyRect_minimized (r : Rect) (wd : WindowData) :
    (applyRect r wd).minimized = wd.minimized := rfl

/-- `applyRect` does not touch the id. -/
theorem applyRect_id (r : Rect) (wd : WindowData) :
    (applyRect r wd).id = wd.id := rfl

/-- Case analysis on `pushWindowAway`: unknown id, no assignable rectangle,
or an assignment of `pushTarget`'s rectangle. -/
theorem pushWindowAway_cases (ws : List WindowData) (cid : String) (p : Rect) :
    (ws.find? (fun wd => wd.id == cid) = none ∧ pushWindowAway ws cid p = ws) ∨
    (∃ wd, ws.find? (fun wd => wd.id == cid) = some wd ∧
      pushTarget (windowRect wd) p = none ∧ pushWindowAway ws cid p = ws) ∨
    (∃ wd r, ws.find? (fun wd => wd.id == cid) = some wd ∧
      pushTarget (windowRect wd) p = some r ∧
      pushWindowAway ws cid p = setRect ws cid r) := by
  cases hf : ws.find? (fun wd => wd.id == cid) with
  | none =>
    refine Or.inl ⟨rfl, ?_⟩
    unfold pushWindowAway
    rw [hf]
  | some wd =>
    cases hp : pushTarget (windowRect wd) p with
    | none =>
      refine Or.inr (Or.inl ⟨wd, rfl, hp, ?_⟩)
      unfold pushWindowAway
      rw [hf]
      show (match pushTarget (windowRect wd) p with
            | none => ws
            | some r => setRect ws cid r) = ws
      rw [hp]
    | some r =>
      refine Or.inr (Or.inr ⟨wd, r, rfl, hp, ?_⟩)
      unfold pushWindowAway
      rw [hf]
      show (match pushTarget (windowRect wd) p with
            | none => ws
            | some r => setRect ws cid r) = setRect ws cid r
      rw [hp]

/-- Membership in `setRect`: every element is an original element, either
untouched or with the rectangle installed. -/
theorem mem_setRect (ws : List WindowData) (cid : String) (r : Rect) (wd1 : WindowData)
    (h : wd1 ∈ setRect ws cid r) :
    ∃ wd ∈ ws, wd1 = if wd.id == cid then applyRect r wd else wd := by
  unfold setRect at h
  rcases List.mem_map.mp h with ⟨wd, hmem, heq⟩
  exact ⟨wd, hmem, heq.symm⟩

/-- `passConflicts` over the empty conflict list is the identity. -/
theorem passConflicts_nil (ws : List WindowData) (p : Rect) :
    passConflicts ws p [] = ws := rfl

/-- One step of `passConflicts`. -/
theorem passConflicts_cons (ws : List WindowData) (p : Rect) (c : String) (cs : List String) :
    passConflicts ws p (c :: cs) = passConflicts (pushWindowAway ws c p) p cs := rfl

/-- A window id appears in `findConflicts` exactly when its carrier is a
non-minimized, non-excluded window that overlaps the rectangle. -/
theorem mem_findConflicts_of_overlap (ws : List WindowData) (p : Rect) (pid : String)
    (wd : WindowData) (hmem : wd ∈ ws) (hmin : wd.minimized = false)
    (hne : wd.id ≠ pid) (hov : rectsOverlap p (windowRect wd) = true) :
    wd.id ∈ findConflicts ws p (some pid) := by
  unfold findConflicts
  refine List.mem_map.mpr ⟨wd, ?_, rfl⟩
  refine List.mem_filter.mpr ⟨hmem, ?_⟩
  simp [hmin, hov, hne]

/-- If `findConflicts` against the priority rectangle is empty, every
non-minimized non-priority window is separated from it. -/
theorem allClear_of_findConflicts_nil (ws : List WindowData) (p : Rect) (pid : String)
    (h : findConflicts ws p (some pid) = []) :
    ∀ wd ∈ ws, wd.minimized = false → wd.id ≠ pid →
      rectsOverlap p (windowRect wd) = false := by
  intro wd hmem hmin hne
  cases hov : rectsOverlap p (windowRect wd) with
  | false => rfl
  | true =>
    exfalso
    have := mem_findConflicts_of_overlap ws p pid wd hmem hmin hne hov
    rw [h] at this
    exact List.not_mem_nil _ this

/-- Conversely, if every non-minimized non-priority window is separated
from the priority rectangle then `findConflicts` is empty. -/
theorem findConflicts_nil_of_allClear (ws : List WindowData) (p : Rect) (pid : String)
    (h : ∀ wd ∈ ws, wd.minimized = false → wd.id ≠ pid →
      rectsOverlap p (windowRect wd) = false) :
    findConflicts ws p (some pid) = [] := by
  unfold findConflicts
  rw [List.map_eq_nil_iff]
  rw [List.filter_eq_nil_iff]
  intro wd hmem
  by_cases hid : wd.id = pid
  · simp [hid]
  · cases hmin : wd.minimized with
    | true => simp [hmin]
    | false => simp [hid, hmin, h wd hmem hmin hid]

/-- After one full conflict pass, every non-minimized non-priority window
whose separation was not already guaranteed outside the pushed set is
separated from the priority rectangle — provided a fallback region
qualifies, so that every push succeeds in assigning a rectangle. -/
theorem passConflicts_no_overlap (p : Rect) (pid : String) (hq : forceFitQualifies p) :
    ∀ (cids : List String) (ws : List WindowData),
      (∀ wd ∈ ws, wd.minimized = false → wd.id ≠ pid → wd.id ∉ cids →
        rectsOverlap p (windowRect wd) = false) →
      ∀ wd1 ∈ passConflicts ws p cids, wd1.minimized = false → wd1.id ≠ pid →
        rectsOverlap p (windowRect wd1) = false := by
  intro cids
  induction cids with
  | nil =>
    intro ws hinv wd1 hmem hmin hne
    rw [passConflicts_nil] at hmem
    exact hinv wd1 hmem hmin hne (List.not_mem_nil _)
  | cons c cs ih =>
    intro ws hinv wd1 hmem hmin hne
    rw [passConflicts_cons] at hmem
    refine ih (pushWindowAway ws c p) ?_ wd1 hmem hmin hne
    intro wd2 hmem2 hmin2 hne2 hnotin2
    rcases pushWindowAway_cases ws c p with ⟨hf, heq⟩ | ⟨wd, hf, hp, heq⟩ | ⟨wd, r, hf, hp, heq⟩
    · rw [heq] at hmem2
      have hne2c : wd2.id ≠ c := by
        intro hc
        have := List.find?_eq_none.mp hf wd2 hmem2
        simp [hc] at this
      exact hinv wd2 hmem2 hmin2 hne2 (by
        intro hin
        rcases List.mem_cons.mp hin with h | h
        · exact hne2c h
        · exact hnotin2 h)
    · exfalso
      rcases pushTarget_isSome p hq (windowRect wd) with ⟨r, hr⟩
      rw [hp] at hr
      cases hr
    · rw [heq] at hmem2
      rcases mem_setRect ws c r wd2 hmem2 with ⟨wd0, hmem0, heq0⟩
      by_cases hc : wd0.id = c
      · rw [heq0]
        simp only [hc, beq_self_eq_true, if_true]
        rw [windowRect_applyRect]
        exact pushTarget_no_overlap (windowRect wd) p r hp
      · rw [heq0]
        simp only [beq_eq_false_iff_ne, ne_eq, hc, not_false_iff, beq_iff_eq, if_neg hc]
        refine hinv wd0 hmem0 ?_ ?_ ?_
        · rw [heq0] at hmin2
          simpa [if_neg (by simpa using hc)] using hmin2
        · rw [heq0] at hne2
          simpa [if_neg (by simpa using hc)] using hne2
        · intro hin
          rcases List.mem_cons.mp hin with h | h
          · exact hc h
          · refine hnotin2 ?_
            rw [heq0]
            simpa [if_neg (by simpa using hc)] using h

/-- Unfolding of one `resolveOverlaps` loop iteration. -/
theorem resolveLoop_succ (p : Rect) (pid : String) (n : Nat) (ws : List WindowData) :
    resolveLoop p pid (n + 1) ws =
      if (findConflicts ws p (some pid)).isEmpty then ws
      else resolveLoop p pid n (passConflicts ws p (findConflicts ws p (some pid))) := rfl

/-- Once every non-minimized non-priority window is separated from the
priority rectangle, the loop is the identity for any remaining fuel. -/
theorem resolveLoop_of_allClear (p : Rect) (pid : String) (ws : List WindowData)
    (h : ∀ wd ∈ ws, wd.minimized = false → wd.id ≠ pid →
      rectsOverlap p (windowRect wd) = false) :
    ∀ n, resolveLoop p pid n ws = ws := by
  intro n
  cases n with
  | zero => rfl
  | succ n =>
    rw [resolveLoop_succ, findConflicts_nil_of_allClear ws p pid h]
    rfl

/-- Claim C1, amended: after `resolveOverlaps(pid)` completes, no
non-minimized window other than the priority window overlaps the priority
window's rectangle, provided at least one `forceFit` fallback region
qualifies (so that every conflicting window can actually be pushed or
force-fitted).  Overlaps between two non-priority windows can, however,
be created by the pushes and persist — see the counterexample. -/
theorem resolveOverlaps_clears_priority_conflicts
    (ws : List WindowData) (pid : String) (pd : WindowData)
    (hfind : ws.find? (fun wd => wd.id == pid) = some pd)
    (hq : forceFitQualifies (windowRect pd)) :
    ∀ wd1 ∈ resolveOverlaps ws pid, wd1.minimized = false → wd1.id ≠ pid →
      rectsOverlap (windowRect pd) (windowRect wd1) = false := by
  intro wd1 hmem hmin hne
  have hres : resolveOverlaps ws pid = resolveLoop (windowRect pd) pid maxIterations ws := by
    unfold resolveOverlaps
    rw [hfind]
  rw [hres] at hmem
  have h50 : maxIterations = 49 + 1 := rfl
  rw [h50, resolveLoop_succ] at hmem
  split at hmem
  · rename_i hempty
    exact allClear_of_findConflicts_nil ws (windowRect pd) pid
      (List.isEmpty_iff.mp hempty) wd1 hmem hmin hne
  · have hclear : ∀ wd2 ∈ passConflicts ws (windowRect pd)
        (findConflicts ws (windowRect pd) (some pid)),
        wd2.minimized = false → wd2.id ≠ pid →
        rectsOverlap (windowRect pd) (windowRect wd2) = false := by
      refine passConflicts_no_overlap (windowRect pd) pid hq _ ws ?_
      intro wd2 hmem2 hmin2 hne2 hnotin
      cases hov : rectsOverlap (windowRect pd) (windowRect wd2) with
      | false => rfl
      | true =>
        exact absurd
          (mem_findConflicts_of_overlap ws (windowRect pd) pid wd2 hmem2 hmin2 hne2 hov)
          hnotin
    rw [resolveLoop_of_allClear _ _ _ hclear 49] at hmem
    exact hclear wd1 hmem hmin hne

/-- Witness for `resolveOverlaps_clears_priority_conflicts`: in the
push-right scenario, the pushed window B ends separated from priority A. -/
theorem resolveOverlaps_clears_priority_conflicts_witness :
    rectsOverlap (windowRect ⟨"A", 0, 0, 4, 4, false⟩)
      (windowRect ⟨"B", 4, 0, 4, 4, false⟩) = false :=
  resolveOverlaps_clears_priority_conflicts
    [⟨"A", 0, 0, 4, 4, false⟩, ⟨"B", 2, 0, 4, 4, false⟩] "A" ⟨"A", 0, 0, 4, 4, false⟩
    (by decide) (by decide) ⟨"B", 4, 0, 4, 4, false⟩ (by decide) (by decide) (by decide)

/-- The rectangle currently registered under an id (read through the same
first-match lookup `this.windows.get` performs). -/
def rectOf (ws : List WindowData) (pid : String) : Option Rect :=
  (ws.find? (fun wd => wd.id == pid)).map windowRect

/-- Assigning a rectangle to a different id leaves `rectOf pid` alone. -/
theorem rectOf_setRect_ne (ws : List WindowData) (cid pid : String) (r : Rect)
    (hne : cid ≠ pid) : rectOf (setRect ws cid r) pid = rectOf ws pid := by
  unfold rectOf setRect
  rw [List.find?_map]
  have hpred : ((fun wd => wd.id == pid) ∘
      fun wd => if wd.id == cid then applyRect r wd else wd) =
      fun wd => wd.id == pid := by
    funext wd
    by_cases hc : wd.id = cid
    · simp [Function.comp, hc, applyRect_id]
    · simp [Function.comp, hc]
  rw [hpred]
  cases hf : ws.find? (fun wd => wd.id == pid) with
  | none => rfl
  | some wd =>
    have hid : wd.id = pid := by simpa using List.find?_some hf
    have hcid : ¬ wd.id = cid := fun h => hne (h ▸ hid)
    simp [hcid]

/-- Pushing a window with a different id leaves `rectOf pid` alone. -/
theorem rectOf_pushWindowAway_ne (ws : List WindowData) (cid pid : String) (p : Rect)
    (hne : cid ≠ pid) : rectOf (pushWindowAway ws cid p) pid = rectOf ws pid := by
  rcases pushWindowAway_cases ws cid p with ⟨_, heq⟩ | ⟨wd, _, _, heq⟩ | ⟨wd, r, _, _, heq⟩
  · rw [heq]
  · rw [heq]
  · rw [heq]
    exact rectOf_setRect_ne ws cid pid r hne

/-- Every id `findConflicts` returns differs from the excluded id. -/
theorem findConflicts_ne_excl (ws : List WindowData) (p : Rect) (pid : String) :
    ∀ c ∈ findConflicts ws p (some pid), c ≠ pid := by
  intro c hc
  unfold findConflicts at hc
  rcases List.mem_map.mp hc with ⟨wd, hmem, rfl⟩
  have hpred := (List.mem_filter.mp hmem).2
  simp only [Bool.and_eq_true, Bool.not_eq_true', Bool.or_eq_false_iff] at hpred
  intro h
  have := hpred.1.1
  rw [h] at this
  simp at this

/-- A full conflict pass leaves `rectOf pid` alone when no pushed id is
`pid`. -/
theorem rectOf_passConflicts (p : Rect) (pid : String) :
    ∀ (cids : List String) (ws : List WindowData), (∀ c ∈ cids, c ≠ pid) →
      rectOf (passConflicts ws p cids) pid = rectOf ws pid := by
  intro cids
  induction cids with
  | nil => intro ws _; rfl
  | cons c cs ih =>
    intro ws hne
    rw [passConflicts_cons, ih _ (fun d hd => hne d (List.mem_cons_of_mem c hd))]
    exact rectOf_pushWindowAway_ne ws c pid p (hne c (List.mem_cons_self c cs))

/-- The resolution loop leaves `rectOf pid` alone. -/
theorem rectOf_resolveLoop (p : Rect) (pid : String) :
    ∀ (n : Nat) (ws : List WindowData),
      rectOf (resolveLoop p pid n ws) pid = rectOf ws pid := by
  intro n
  induction n with
  | zero => intro ws; rfl
  | succ n ih =>
    intro ws
    rw [resolveLoop_succ]
    split
    · rfl
    · rw [ih]
      exact rectOf_passConflicts p pid _ ws (findConflicts_ne_excl ws p pid)

/-- Claim C3: for every state of the window map and every
`priorityWindowId`, `resolveOverlaps` never modifies the priority window's
`gridX`, `gridY`, `gridW` or `gridH`: the rectangle registered under that
id after the call equals the one before the call. -/
theorem resolveOverlaps_preserves_priority_rect (ws : List WindowData) (pid : String) :
    rectOf (resolveOverlaps ws pid) pid = rectOf ws pid := by
  cases hf : ws.find? (fun wd => wd.id == pid) with
  | none =>
    unfold resolveOverlaps
    rw [hf]
  | some pd =>
    have hres : resolveOverlaps ws pid = resolveLoop (windowRect pd) pid maxIterations ws := by
      unfold resolveOverlaps
      rw [hf]
    rw [hres]
    exact rectOf_resolveLoop (windowRect pd) pid maxIterations ws

/-- Ids contributed by `findConflicts` inherit distinctness from the map. -/
theorem findConflicts_nodup (ws : List WindowData) (p : Rect) (e : Option String)
    (hnd : (ws.map WindowData.id).Nodup) : (findConflicts ws p e).Nodup := by
  unfold findConflicts
  exact hnd.sublist ((List.filter_sublist ws).map WindowData.id)

/-- A map whose function fixes every element is the identity. -/
theorem map_eq_self_of_fix (l : List WindowData) (f : WindowData → WindowData)
    (h : ∀ a ∈ l, f a = a) : l.map f = l := by
  rw [List.map_congr_left h]
  exact List.map_id' l

/-- `setRect` does not change the sequence of ids. -/
theorem ids_setRect (ws : List WindowData) (cid : String) (r : Rect) :
    (setRect ws cid r).map WindowData.id = ws.map WindowData.id := by
  unfold setRect
  rw [List.map_map]
  refine List.map_congr_left ?_
  intro wd _
  by_cases h : wd.id = cid <;> simp [Function.comp, h, applyRect_id]

/-- `pushWindowAway` does not change the sequence of ids. -/
theorem ids_pushWindowAway (ws : List WindowData) (cid : String) (p : Rect) :
    (pushWindowAway ws cid p).map WindowData.id = ws.map WindowData.id := by
  rcases pushWindowAway_cases ws cid p with ⟨_, heq⟩ | ⟨_, _, _, heq⟩ | ⟨_, r, _, _, heq⟩ <;>
    rw [heq]
  exact ids_setRect ws cid r

/-- A conflict pass does not change the sequence of ids. -/
theorem ids_passConflicts (p : Rect) :
    ∀ (cids : List String) (ws : List WindowData),
      (passConflicts ws p cids).map WindowData.id = ws.map WindowData.id := by
  intro cids
  induction cids with
  | nil => intro ws; rfl
  | cons c cs ih =>
    intro ws
    rw [passConflicts_cons, ih, ids_pushWindowAway]

/-- The resolution loop does not change the sequence of ids. -/
theorem ids_resolveLoop (p : Rect) (pid : String) :
    ∀ (n : Nat) (ws : List WindowData),
      (resolveLoop p pid n ws).map WindowData.id = ws.map WindowData.id := by
  intro n
  induction n with
  | zero => intro ws; rfl
  | succ n ih =>
    intro ws
    rw [resolveLoop_succ]
    split
    · rfl
    · rw [ih, ids_passConflicts]

/-- The per-element effect of one conflict pass: a window whose id is in
the pushed set receives `pushTarget`'s rectangle (or stays put when there
is none); all other windows stay put. -/
def passFun (p : Rect) (cids : List String) (wd : WindowData) : WindowData :=
  if wd.id ∈ cids then
    match pushTarget (windowRect wd) p with
    | none => wd
    | some r => applyRect r wd
  else wd

/-- With distinct window ids and distinct conflict ids, a conflict pass
acts pointwise: the found window for each pushed id is the original
element, because earlier pushes only touch other ids. -/
theorem passConflicts_eq_map (p : Rect) :
    ∀ (cids : List String) (ws : List WindowData),
      (ws.map WindowData.id).Nodup → cids.Nodup →
      passConflicts ws p cids = ws.map (passFun p cids) := by
  intro cids
  induction cids with
  | nil =>
    intro ws _ _
    rw [passConflicts_nil]
    symm
    refine map_eq_self_of_fix ws _ ?_
    intro wd _
    simp [passFun]
  | cons c cs ih =>
    intro ws hnd hcnd
    have hcs : cs.Nodup := (List.nodup_cons.mp hcnd).2
    have hcnotin : c ∉ cs := (List.nodup_cons.mp hcnd).1
    rw [passConflicts_cons]
    rcases pushWindowAway_cases ws c p with ⟨hf, heq⟩ | ⟨wd0, hf, hp, heq⟩ | ⟨wd0, r, hf, hp, heq⟩
    · rw [heq, ih ws hnd hcs]
      refine List.map_congr_left ?_
      intro wd hmem
      have hne : wd.id ≠ c := by
        intro h
        have := List.find?_eq_none.mp hf wd hmem
        simp [h] at this
      simp [passFun, List.mem_cons, hne]
    · rw [heq, ih ws hnd hcs]
      refine List.map_congr_left ?_
      intro wd hmem
      have hmem0 := List.mem_of_find?_eq_some hf
      have hid0 : wd0.id = c := by simpa using List.find?_some hf
      by_cases hc : wd.id = c
      · have hwd : wd = wd0 :=
          List.inj_on_of_nodup_map hnd hmem hmem0 (by rw [hc, hid0])
        simp [passFun, List.mem_cons, hwd, hid0, hcnotin, hp]
      · simp [passFun, List.mem_cons, hc]
    · have hnd1 : ((setRect ws c r).map WindowData.id).Nodup := by
        rw [ids_setRect]
        exact hnd
      rw [heq, ih _ hnd1 hcs]
      unfold setRect
      rw [List.map_map]
      refine List.map_congr_left ?_
      intro wd hmem
      have hmem0 := List.mem_of_find?_eq_some hf
      have hid0 : wd0.id = c := by simpa using List.find?_some hf
      by_cases hc : wd.id = c
      · have hwd : wd = wd0 :=
          List.inj_on_of_nodup_map hnd hmem hmem0 (by rw [hc, hid0])
        simp [Function.comp, passFun, List.mem_cons, hc, hwd, hid0, hcnotin, hp,
          applyRect_id]
      · simp [Function.comp, passFun, List.mem_cons, hc]

/-- Decomposition of membership in `findConflicts` for a window of the
state, under distinct ids. -/
theorem of_mem_findConflicts (ws : List WindowData) (p : Rect) (pid : String)
    (hnd : (ws.map WindowData.id).Nodup) (wd : WindowData) (hmem : wd ∈ ws)
    (h : wd.id ∈ findConflicts ws p (some pid)) :
    wd.minimized = false ∧ wd.id ≠ pid ∧ rectsOverlap p (windowRect wd) = true := by
  unfold findConflicts at h
  rcases List.mem_map.mp h with ⟨wd1, hfil, hid⟩
  have hmem1 := (List.mem_filter.mp hfil).1
  have hpred := (List.mem_filter.mp hfil).2
  have hwd : wd1 = wd := List.inj_on_of_nodup_map hnd hmem1 hmem hid
  subst hwd
  simp only [Bool.and_eq_true, Bool.not_eq_true', Bool.or_eq_false_iff] at hpred
  refine ⟨hpred.1.2, ?_, hpred.2⟩
  intro hpe
  have := hpred.1.1
  rw [hpe] at this
  simp at this

/-- If every window still conflicting has no assignable rectangle, the
conflict pass is the identity. -/
theorem passConflicts_of_stable (p : Rect) (pid : String) (ws : List WindowData)
    (hnd : (ws.map WindowData.id).Nodup)
    (hstab : ∀ wd ∈ ws, wd.id ∈ findConflicts ws p (some pid) →
      pushTarget (windowRect wd) p = none) :
    passConflicts ws p (findConflicts ws p (some pid)) = ws := by
  rw [passConflicts_eq_map p _ ws hnd (findConflicts_nodup ws p _ hnd)]
  refine map_eq_self_of_fix ws _ ?_
  intro wd hmem
  unfold passFun
  by_cases h : wd.id ∈ findConflicts ws p (some pid)
  · simp [h, hstab wd hmem h]
  · simp [h]

/-- If every window still conflicting has no assignable rectangle, the
resolution loop is the identity for any fuel. -/
theorem resolveLoop_of_stable (p : Rect) (pid : String) (ws : List WindowData)
    (hnd : (ws.map WindowData.id).Nodup)
    (hstab : ∀ wd ∈ ws, wd.id ∈ findConflicts ws p (some pid) →
      pushTarget (windowRect wd) p = none) :
    ∀ n, resolveLoop p pid n ws = ws := by
  intro n
  induction n with
  | zero => rfl
  | succ n ih =>
    rw [resolveLoop_succ]
    split
    · rfl
    · rw [passConflicts_of_stable p pid ws hnd hstab]
      exact ih

/-- After one conflict pass, every window that still conflicts with the
priority rectangle is one whose `pushTarget` was (and therefore still is)
`none`: a successful assignment would have separated it. -/
theorem passConflicts_stable_after (p : Rect) (pid : String) (ws : List WindowData)
    (hnd : (ws.map WindowData.id).Nodup) :
    ∀ wd1 ∈ passConflicts ws p (findConflicts ws p (some pid)),
      wd1.id ∈ findConflicts (passConflicts ws p (findConflicts ws p (some pid))) p
        (some pid) →
      pushTarget (windowRect wd1) p = none := by
  intro wd1 hmem1 hin
  have hndC : (findConflicts ws p (some pid)).Nodup := findConflicts_nodup ws p _ hnd
  have hnd1 : ((passConflicts ws p (findConflicts ws p (some pid))).map WindowData.id).Nodup := by
    rw [ids_passConflicts]
    exact hnd
  obtain ⟨hmin1, hne1, hov1⟩ := of_mem_findConflicts _ p pid hnd1 wd1 hmem1 hin
  rw [passConflicts_eq_map p _ ws hnd hndC] at hmem1
  rcases List.mem_map.mp hmem1 with ⟨wd0, hmem0, heq0⟩
  by_cases hc : wd0.id ∈ findConflicts ws p (some pid)
  · unfold passFun at heq0
    rw [if_pos hc] at heq0
    cases hp : pushTarget (windowRect wd0) p with
    | none =>
      simp only [hp] at heq0
      rw [← heq0]
      exact hp
    | some r =>
      exfalso
      simp only [hp] at heq0
      rw [← heq0, windowRect_applyRect] at hov1
      rw [pushTarget_no_overlap (windowRect wd0) p r hp] at hov1
      exact Bool.false_ne_true hov1
  · exfalso
    unfold passFun at heq0
    rw [if_neg hc] at heq0
    refine hc ?_
    rw [heq0]
    exact mem_findConflicts_of_overlap ws p pid wd1 (heq0 ▸ hmem0) hmin1 hne1 hov1

/-- Claim C7: `resolveOverlaps` is idempotent — a second call with no
intervening mutation changes no geometry.  The distinct-ids hypothesis
reflects that `this.windows` is a `Map` keyed by id. -/
theorem resolveOverlaps_idempotent (ws : List WindowData) (pid : String)
    (hnd : (ws.map WindowData.id).Nodup) :
    resolveOverlaps (resolveOverlaps ws pid) pid = resolveOverlaps ws pid := by
  cases hf : ws.find? (fun wd => wd.id == pid) with
  | none =>
    have h1 : resolveOverlaps ws pid = ws := by
      unfold resolveOverlaps
      rw [hf]
    rw [h1]
    exact h1
  | some pd =>
    have hres : resolveOverlaps ws pid = resolveLoop (windowRect pd) pid maxIterations ws := by
      unfold resolveOverlaps
      rw [hf]
    have h50 : maxIterations = 49 + 1 := rfl
    by_cases hempty : (findConflicts ws (windowRect pd) (some pid)).isEmpty = true
    · have hR : resolveOverlaps ws pid = ws := by
        rw [hres, h50, resolveLoop_succ, if_pos hempty]
      rw [hR]
      exact hR
    · have hnd1 : ((passConflicts ws (windowRect pd)
          (findConflicts ws (windowRect pd) (some pid))).map WindowData.id).Nodup := by
        rw [ids_passConflicts]
        exact hnd
      have hstab1 := passConflicts_stable_after (windowRect pd) pid ws hnd
      have hR : resolveOverlaps ws pid =
          passConflicts ws (windowRect pd) (findConflicts ws (windowRect pd) (some pid)) := by
        rw [hres, h50, resolveLoop_succ, if_neg hempty]
        exact resolveLoop_of_stable (windowRect pd) pid _ hnd1 hstab1 49
      have hrect : rectOf (passConflicts ws (windowRect pd)
          (findConflicts ws (windowRect pd) (some pid))) pid = some (windowRect pd) := by
        rw [rectOf_passConflicts (windowRect pd) pid _ ws
          (findConflicts_ne_excl ws (windowRect pd) pid)]
        unfold rectOf
        rw [hf]
        rfl
      rcases Option.map_eq_some'.mp hrect with ⟨pd1, hfind1, hrect1⟩
      rw [hR]
      have hres2 : resolveOverlaps (passConflicts ws (windowRect pd)
            (findConflicts ws (windowRect pd) (some pid))) pid =
          resolveLoop (windowRect pd1) pid maxIterations
            (passConflicts ws (windowRect pd)
              (findConflicts ws (windowRect pd) (some pid))) := by
        unfold resolveOverlaps
        rw [hfind1]
      rw [hres2, hrect1]
      exact resolveLoop_of_stable (windowRect pd) pid _ hnd1 hstab1 maxIterations

/-- Witness for `resolveOverlaps_idempotent`: the push-right scenario,
re-resolved. -/
theorem resolveOverlaps_idempotent_witness :
    resolveOverlaps (resolveOverlaps
        [⟨"A", 0, 0, 4, 4, false⟩, ⟨"B", 2, 0, 4, 4, false⟩] "A") "A" =
      resolveOverlaps [⟨"A", 0, 0, 4, 4, false⟩, ⟨"B", 2, 0, 4, 4, false⟩] "A" :=
  resolveOverlaps_idempotent
    [⟨"A", 0, 0, 4, 4, false⟩, ⟨"B", 2, 0, 4, 4, false⟩] "A" (by decide)

/-- Claim C6, amended: when the push-right candidate must shrink
(`newX + w > gridSize` for `newX = priorityRect.x + priorityRect.w`), any
accepted candidate has width exactly `gridSize - newX`, which is at least
`minWindowSize`; when the width that would fit is below `minWindowSize`
the push-right candidate is rejected; and `forceFit` is invoked exactly
when NO direction yields a valid candidate (not merely when push-right is
rejected — see the counterexample). -/
theorem push_right_shrink_and_reject (wr p : Rect) :
    (∀ m, pushRightMove wr p = some m → p.x + p.w + wr.w > gridSize →
      m.w = gridSize - (p.x + p.w) ∧ minWindowSize ≤ m.w) ∧
    (gridSize - (p.x + p.w) < minWindowSize → pushRightMove wr p = none) ∧
    (∀ (ws : List WindowData) (cid : String) (wd : WindowData),
      ws.find? (fun x => x.id == cid) = some wd →
      pushMoves (windowRect wd) p = [] →
      pushWindowAway ws cid p = forceFitState ws cid p) := by
  refine ⟨?_, ?_, ?_⟩
  · intro m h hover
    simp only [pushRightMove] at h
    split_ifs at h with h1 h2
    cases h
    simp only [gridSize, minWindowSize] at *
    constructor <;> omega
  · intro hlt
    simp only [pushRightMove]
    split_ifs with h1 h2
    · exfalso
      simp only [gridSize, minWindowSize] at *
      omega
    · rfl
    · rfl
  · intro ws cid wd hfind hmoves
    unfold pushWindowAway forceFitState
    rw [hfind]
    have hpt : pushTarget (windowRect wd) p = forceFitRect (windowRect wd) p := by
      unfold pushTarget
      rw [hmoves]
      rfl
    show (match pushTarget (windowRect wd) p with
          | none => ws
          | some r => setRect ws cid r) =
        (match forceFitRect (windowRect wd) p with
          | none => ws
          | some r => setRect ws cid r)
    rw [hpt]

/-- Witness for `push_right_shrink_and_reject`: a shrinking accepted
candidate (`wr = {4,0,4,4}`, `p = {0,0,5,4}`, width `3 = 8 - 5`), a
rejection (`p = {0,0,7,4}`, required width `1 < 2`), and a no-moves state
(`p = {0,0,8,8}` swallows the grid) where `pushWindowAway` agrees with
`forceFit`. -/
theorem push_right_shrink_and_reject_witness :
    ((⟨"right", 2, 5, 0, 3, 4⟩ : Move).w = gridSize - (0 + 5) ∧
      minWindowSize ≤ (⟨"right", 2, 5, 0, 3, 4⟩ : Move).w) ∧
    pushRightMove ⟨6, 2, 2, 4⟩ ⟨0, 0, 7, 4⟩ = none ∧
    pushWindowAway [⟨"B", 0, 0, 2, 2, false⟩] "B" ⟨0, 0, 8, 8⟩ =
      forceFitState [⟨"B", 0, 0, 2, 2, false⟩] "B" ⟨0, 0, 8, 8⟩ :=
  ⟨(push_right_shrink_and_reject ⟨4, 0, 4, 4⟩ ⟨0, 0, 5, 4⟩).1
      ⟨"right", 2, 5, 0, 3, 4⟩ (by decide) (by decide),
   (push_right_shrink_and_reject ⟨6, 2, 2, 4⟩ ⟨0, 0, 7, 4⟩).2.1 (by decide),
   (push_right_shrink_and_reject ⟨0, 0, 2, 2⟩ ⟨0, 0, 8, 8⟩).2.2
      [⟨"B", 0, 0, 2, 2, false⟩] "B" ⟨"B", 0, 0, 2, 2, false⟩ (by decide) (by decide)⟩

/-- Claim C8: `forceFit` tries the four fallback regions in the order
right-of-priority, left-of-priority, below-priority, above-priority,
places the target in the first region whose available width and height
both reach `minWindowSize` (clamping the target's dimensions to the
region via `min`, floored at `minWindowSize`), and when no region
qualifies it leaves the whole state — in particular the target's
`gridX`, `gridY`, `gridW`, `gridH` — completely unchanged.  (The
perpendicular extent of the right/left regions is the full `gridSize`,
so their height test always passes; similarly for below/above.) -/
theorem forceFit_fallback_regions (ws : List WindowData) (cid : String) (p : Rect)
    (wd : WindowData) (hfind : ws.find? (fun x => x.id == cid) = some wd) :
    (minWindowSize ≤ gridSize - (p.x + p.w) →
      forceFitState ws cid p = setRect ws cid
        ⟨p.x + p.w, 0, max minWindowSize (min wd.gridW (gridSize - (p.x + p.w))),
         max minWindowSize (min wd.gridH gridSize)⟩) ∧
    (gridSize - (p.x + p.w) < minWindowSize → minWindowSize ≤ p.x →
      forceFitState ws cid p = setRect ws cid
        ⟨0, 0, max minWindowSize (min wd.gridW p.x),
         max minWindowSize (min wd.gridH gridSize)⟩) ∧
    (gridSize - (p.x + p.w) < minWindowSize → p.x < minWindowSize →
      minWindowSize ≤ gridSize - (p.y + p.h) →
      forceFitState ws cid p = setRect ws cid
        ⟨0, p.y + p.h, max minWindowSize (min wd.gridW gridSize),
         max minWindowSize (min wd.gridH (gridSize - (p.y + p.h)))⟩) ∧
    (gridSize - (p.x + p.w) < minWindowSize → p.x < minWindowSize →
      gridSize - (p.y + p.h) < minWindowSize → minWindowSize ≤ p.y →
      forceFitState ws cid p = setRect ws cid
        ⟨0, 0, max minWindowSize (min wd.gridW gridSize),
         max minWindowSize (min wd.gridH p.y)⟩) ∧
    (gridSize - (p.x + p.w) < minWindowSize → p.x < minWindowSize →
      gridSize - (p.y + p.h) < minWindowSize → p.y < minWindowSize →
      forceFitState ws cid p = ws) := by
  have hstate : forceFitState ws cid p =
      match forceFitRect (windowRect wd) p with
      | none => ws
      | some r => setRect ws cid r := by
    unfold forceFitState
    rw [hfind]
  refine ⟨?_, ?_, ?_, ?_, ?_⟩
  · intro h1
    rw [hstate, forceFitRect_eq, if_pos ⟨h1, by decide⟩]
    rfl
  · intro h1 h2
    rw [hstate, forceFitRect_eq,
      if_neg (fun hc => absurd hc.1 (by omega)), if_pos ⟨h2, by decide⟩]
    rfl
  · intro h1 h2 h3
    rw [hstate, forceFitRect_eq,
      if_neg (fun hc => absurd hc.1 (by omega)),
      if_neg (fun hc => absurd hc.1 (by omega)),
      if_pos ⟨by decide, h3⟩]
    rfl
  · intro h1 h2 h3 h4
    rw [hstate, forceFitRect_eq,
      if_neg (fun hc => absurd hc.1 (by omega)),
      if_neg (fun hc => absurd hc.1 (by omega)),
      if_neg (fun hc => absurd hc.2 (by omega)),
      if_pos ⟨by decide, h4⟩]
    rfl
  · intro h1 h2 h3 h4
    rw [hstate, forceFitRect_eq,
      if_neg (fun hc => absurd hc.1 (by omega)),
      if_neg (fun hc => absurd hc.1 (by omega)),
      if_neg (fun hc => absurd hc.2 (by omega)),
      if_neg (fun hc => absurd hc.2 (by omega))]

/-- Witness for `forceFit_fallback_regions`: with priority `{0,0,4,4}`
the right region qualifies and receives the target; with priority
`{0,0,8,8}` no region qualifies and the state is untouched. -/
theorem forceFit_fallback_regions_witness :
    forceFitState [⟨"B", 2, 0, 4, 4, false⟩] "B" ⟨0, 0, 4, 4⟩ =
      setRect [⟨"B", 2, 0, 4, 4, false⟩] "B"
        ⟨0 + 4, 0, max minWindowSize (min 4 (gridSize - (0 + 4))),
         max minWindowSize (min 4 gridSize)⟩ ∧
    forceFitState [⟨"B", 0, 0, 2, 2, false⟩] "B" ⟨0, 0, 8, 8⟩ =
      [⟨"B", 0, 0, 2, 2, false⟩] :=
  ⟨(forceFit_fallback_regions [⟨"B", 2, 0, 4, 4, false⟩] "B" ⟨0, 0, 4, 4⟩
      ⟨"B", 2, 0, 4, 4, false⟩ (by decide)).1 (by decide),
   (forceFit_fallback_regions [⟨"B", 0, 0, 2, 2, false⟩] "B" ⟨0, 0, 8, 8⟩
      ⟨"B", 0, 0, 2, 2, false⟩ (by decide)).2.2.2.2
      (by decide) (by decide) (by decide) (by decide)⟩

/-- Row-major order on grid origins: strictly earlier row, or same row and
strictly smaller column. -/
def rowMajorLt (c d : Int × Int) : Prop :=
  c.2 < d.2 ∨ (c.2 = d.2 ∧ c.1 < d.1)

/-- Row-major order is asymmetric. -/
theorem rowMajorLt_asymm (a b : Int × Int) (h1 : rowMajorLt a b) : ¬ rowMajorLt b a := by
  unfold rowMajorLt at *
  omega

/-- A y-outer, x-inner double scan lists origins in strictly increasing
row-major order. -/
theorem pairwise_row_major (ys xs : List Nat) (hys : ys.Pairwise (· < ·))
    (hxs : xs.Pairwise (· < ·)) :
    (ys.flatMap fun y => xs.map fun x => (Int.ofNat x, Int.ofNat y)).Pairwise rowMajorLt := by
  induction ys with
  | nil => simp
  | cons y ys ih =>
    have hys2 := List.pairwise_cons.mp hys
    rw [List.flatMap_cons, List.pairwise_append]
    refine ⟨?_, ih hys2.2, ?_⟩
    · exact List.Pairwise.map (fun x => (Int.ofNat x, Int.ofNat y))
        (fun a b hab => Or.inr ⟨rfl, Int.ofNat_lt.mpr hab⟩) hxs
    · intro a ha b hb
      rcases List.mem_map.mp ha with ⟨xa, _, rfl⟩
      rcases List.mem_flatMap.mp hb with ⟨yb, hyb, hbmem⟩
      rcases List.mem_map.mp hbmem with ⟨xb, _, rfl⟩
      exact Or.inl (Int.ofNat_lt.mpr (hys2.1 yb hyb))

/-- The `findFreeSpot` scan order is strictly increasing row-major. -/
theorem freeSpotCandidates_pairwise (width height : Int) :
    (freeSpotCandidates width height).Pairwise rowMajorLt :=
  pairwise_row_major _ _ (List.pairwise_lt_range _) (List.pairwise_lt_range _)

/-- On a strictly row-major-sorted scan, `find?` skips exactly the
origins that fail the test: anything strictly earlier than the hit fails. -/
theorem find?_first_of_pairwise :
    ∀ (l : List (Int × Int)) (q : (Int × Int) → Bool) (a : Int × Int),
      l.Pairwise rowMajorLt → l.find? q = some a →
      ∀ c ∈ l, rowMajorLt c a → q c = false := by
  intro l
  induction l with
  | nil =>
    intro q a _ h
    cases h
  | cons b l ih =>
    intro q a hpw hfind c hc hR
    cases hqb : q b with
    | true =>
      have hab : b = a := by
        have := List.find?_cons_of_pos (p := q) l hqb
        rw [this] at hfind
        exact Option.some.inj hfind
      rcases List.mem_cons.mp hc with rfl | hcl
      · exact absurd hR (fun h2 => rowMajorLt_asymm c a (hab ▸ h2) (hab ▸ h2))
      · have hbc := (List.pairwise_cons.mp hpw).1 c hcl
        exact absurd hR (hab ▸ rowMajorLt_asymm b c hbc)
    | false =>
      have hfind2 : l.find? q = some a := by
        have heq := List.find?_cons_of_neg (p := q) (a := b) l (by simp [hqb])
        rw [heq] at hfind
        exact hfind
      rcases List.mem_cons.mp hc with rfl | hcl
      · exact hqb
      · exact ih q a (List.pairwise_cons.mp hpw).2 hfind2 c hcl hR

/-- Membership in the free-spot scan: exactly the origins of the two
nested loop ranges. -/
theorem mem_freeSpotCandidates (w h x y : Int) :
    (x, y) ∈ freeSpotCandidates w h ↔
      0 ≤ x ∧ x ≤ gridSize - w ∧ 0 ≤ y ∧ y ≤ gridSize - h := by
  unfold freeSpotCandidates
  simp only [gridSize]
  constructor
  · intro hmem
    rcases List.mem_flatMap.mp hmem with ⟨yn, hyn, hin⟩
    rcases List.mem_map.mp hin with ⟨xn, hxn, heq⟩
    rw [List.mem_range] at hyn hxn
    rw [Prod.mk.injEq] at heq
    obtain ⟨hx, hy⟩ := heq
    subst hx
    subst hy
    simp only [Int.ofNat_eq_natCast]
    omega
  · rintro ⟨h1, h2, h3, h4⟩
    refine List.mem_flatMap.mpr ⟨y.toNat, ?_, ?_⟩
    · rw [List.mem_range]
      omega
    · refine List.mem_map.mpr ⟨x.toNat, ?_, ?_⟩
      · rw [List.mem_range]
        omega
      · rw [Prod.mk.injEq]
        constructor <;> simp only [Int.ofNat_eq_natCast] <;> omega

/-- Claim C5: `findFreeSpot(w, h)` scans origins with `y` outer from `0`
to `8 - h` and `x` inner from `0` to `8 - w`, returns the first origin in
row-major order whose `w×h` rectangle conflicts with no non-minimized
window, and returns `{0,0}` when no conflict-free origin exists;
concretely, the empty grid yields `{0,0}` and a single 4×4 window at
`{0,0}` pushes the answer to `{4,0}`. -/
theorem findFreeSpot_first_free (ws : List WindowData) (w h : Int)
    (hw0 : 0 ≤ w) (hw8 : w ≤ gridSize) (hh0 : 0 ≤ h) (hh8 : h ≤ gridSize) :
    (∀ x y : Int, (x, y) ∈ freeSpotCandidates w h ↔
        0 ≤ x ∧ x ≤ gridSize - w ∧ 0 ≤ y ∧ y ≤ gridSize - h) ∧
    (∀ c, isFreeAt ws w h c = true ↔
        ∀ wd ∈ ws, wd.minimized = false →
          rectsOverlap ⟨c.1, c.2, w, h⟩ (windowRect wd) = false) ∧
    ((∀ c ∈ freeSpotCandidates w h, isFreeAt ws w h c = false) →
      findFreeSpot ws w h = (0, 0)) ∧
    (∀ c ∈ freeSpotCandidates w h, isFreeAt ws w h c = true →
      findFreeSpot ws w h ∈ freeSpotCandidates w h ∧
      isFreeAt ws w h (findFreeSpot ws w h) = true ∧
      ∀ d ∈ freeSpotCandidates w h, rowMajorLt d (findFreeSpot ws w h) →
        isFreeAt ws w h d = false) ∧
    findFreeSpot [] 4 4 = (0, 0) ∧
    findFreeSpot [⟨"window-1", 0, 0, 4, 4, false⟩] 4 4 = (4, 0) := by
  refine ⟨?_, ?_, ?_, ?_, by decide, by decide⟩
  · intro x y
    exact mem_freeSpotCandidates w h x y
  · intro c
    unfold isFreeAt findConflicts
    rw [List.isEmpty_iff, List.map_eq_nil_iff, List.filter_eq_nil_iff]
    constructor
    · intro hf wd hmem hmin
      cases hov : rectsOverlap ⟨c.1, c.2, w, h⟩ (windowRect wd) with
      | false => rfl
      | true =>
        exfalso
        refine hf wd hmem ?_
        simp [hmin, hov]
    · intro hov wd hmem hpred
      simp only [Bool.and_eq_true, Bool.not_eq_true', Bool.or_eq_false_iff] at hpred
      obtain ⟨⟨_, hmin⟩, hov2⟩ := hpred
      rw [hov wd hmem hmin] at hov2
      exact Bool.false_ne_true hov2
  · intro hnone
    unfold findFreeSpot
    rw [List.find?_eq_none.mpr]
    · rfl
    · intro c hc hq
      rw [hnone c hc] at hq
      exact Bool.false_ne_true hq
  · intro c hc hfree
    cases hfind : (freeSpotCandidates w h).find? (isFreeAt ws w h) with
    | none =>
      exfalso
      have := List.find?_eq_none.mp hfind c hc
      rw [hfree] at this
      exact this rfl
    | some s =>
      have hspot : findFreeSpot ws w h = s := by
        unfold findFreeSpot
        rw [hfind]
        rfl
      rw [hspot]
      refine ⟨List.mem_of_find?_eq_some hfind, List.find?_some hfind, ?_⟩
      intro d hd hlt
      exact find?_first_of_pairwise _ _ s (freeSpotCandidates_pairwise w h) hfind d hd hlt

/-- Witness for `findFreeSpot_first_free`: with a 4×4 window at `{0,0}`,
the origin `{4,0}` found by the scan is free, is a scan candidate, and
every row-major-earlier candidate such as `{2,0}` is not free. -/
theorem findFreeSpot_first_free_witness :
    ((4 : Int), (0 : Int)) ∈ freeSpotCandidates 4 4 ∧
    isFreeAt [⟨"window-1", 0, 0, 4, 4, false⟩] 4 4
      (findFreeSpot [⟨"window-1", 0, 0, 4, 4, false⟩] 4 4) = true ∧
    isFreeAt [⟨"window-1", 0, 0, 4, 4, false⟩] 4 4 (2, 0) = false :=
  ⟨(findFreeSpot_first_free [⟨"window-1", 0, 0, 4, 4, false⟩] 4 4
      (by decide) (by decide) (by decide) (by decide)).1 4 0 |>.mpr
      (by refine ⟨by decide, by decide, by decide, by decide⟩),
   ((findFreeSpot_first_free [⟨"window-1", 0, 0, 4, 4, false⟩] 4 4
      (by decide) (by decide) (by decide) (by decide)).2.2.2.1 (4, 0)
      (by decide) (by decide)).2.1,
   ((findFreeSpot_first_free [⟨"window-1", 0, 0, 4, 4, false⟩] 4 4
      (by decide) (by decide) (by decide) (by decide)).2.2.2.1 (4, 0)
      (by decide) (by decide)).2.2 (2, 0) (by decide)
      (by unfold rowMajorLt; decide)⟩

/-- An accepted push-right candidate stays inside the grid. -/
theorem pushRightMove_inBounds (wr p : Rect) (m : Move) (h : pushRightMove wr p = some m)
    (hp : rectInBounds p) (hwr : rectInBounds wr) : rectInBounds m.rect := by
  simp only [pushRightMove] at h
  split_ifs at h
  cases h
  unfold rectInBounds at *
  simp only [Move.rect, gridSize, minWindowSize] at *
  omega

/-- An accepted push-left candidate stays inside the grid. -/
theorem pushLeftMove_inBounds (wr p : Rect) (m : Move) (h : pushLeftMove wr p = some m)
    (hp : rectInBounds p) (hwr : rectInBounds wr) : rectInBounds m.rect := by
  simp only [pushLeftMove] at h
  split_ifs at h <;>
    (cases h
     unfold rectInBounds at *
     simp only [Move.rect, gridSize, minWindowSize] at *
     omega)

/-- An accepted push-down candidate stays inside the grid. -/
theorem pushDownMove_inBounds (wr p : Rect) (m : Move) (h : pushDownMove wr p = some m)
    (hp : rectInBounds p) (hwr : rectInBounds wr) : rectInBounds m.rect := by
  simp only [pushDownMove] at h
  split_ifs at h
  cases h
  unfold rectInBounds at *
  simp only [Move.rect, gridSize, minWindowSize] at *
  omega

/-- An accepted push-up candidate stays inside the grid. -/
theorem pushUpMove_inBounds (wr p : Rect) (m : Move) (h : pushUpMove wr p = some m)
    (hp : rectInBounds p) (hwr : rectInBounds wr) : rectInBounds m.rect := by
  simp only [pushUpMove] at h
  split_ifs at h <;>
    (cases h
     unfold rectInBounds at *
     simp only [Move.rect, gridSize, minWindowSize] at *
     omega)

/-- Every candidate in the `moves` array stays inside the grid. -/
theorem pushMoves_inBounds (wr p : Rect) (m : Move) (hm : m ∈ pushMoves wr p)
    (hp : rectInBounds p) (hwr : rectInBounds wr) : rectInBounds m.rect := by
  unfold pushMoves at hm
  simp only [List.mem_append, Option.mem_toList, Option.mem_def] at hm
  rcases hm with ((h | h) | h) | h
  · exact pushRightMove_inBounds wr p m h hp hwr
  · exact pushLeftMove_inBounds wr p m h hp hwr
  · exact pushDownMove_inBounds wr p m h hp hwr
  · exact pushUpMove_inBounds wr p m h hp hwr

/-- A `forceFit` placement stays inside the grid (needing only the
priority rectangle's bounds: the region extents and the `min`/`max`
clamps confine the result). -/
theorem forceFitRect_inBounds (wr p : Rect) (r : Rect) (h : forceFitRect wr p = some r)
    (hp : rectInBounds p) : rectInBounds r := by
  rw [forceFitRect_eq] at h
  split_ifs at h <;>
    (cases h
     unfold rectInBounds at *
     simp only [gridSize, minWindowSize] at *
     omega)

/-- Any rectangle `pushWindowAway` assigns stays inside the grid. -/
theorem pushTarget_inBounds (wr p : Rect) (r : Rect) (h : pushTarget wr p = some r)
    (hp : rectInBounds p) (hwr : rectInBounds wr) : rectInBounds r := by
  unfold pushTarget at h
  cases hbm : bestMove (pushMoves wr p) with
  | some m =>
    rw [hbm] at h
    cases h
    exact pushMoves_inBounds wr p m (bestMove_mem _ m hbm) hp hwr
  | none =>
    rw [hbm] at h
    exact forceFitRect_inBounds wr p r h hp

/-- `setRect` with an in-grid rectangle preserves the bounds invariant. -/
theorem InBounds_setRect (ws : List WindowData) (cid : String) (r : Rect)
    (hib : InBounds ws) (hr : rectInBounds r) : InBounds (setRect ws cid r) := by
  intro wd1 hmem
  rcases mem_setRect ws cid r wd1 hmem with ⟨wd, hmemw, heq⟩
  by_cases hc : wd.id = cid
  · rw [heq, if_pos (by simpa using hc), windowRect_applyRect]
    exact hr
  · rw [heq, if_neg (by simpa using hc)]
    exact hib wd hmemw

/-- `pushWindowAway` preserves the bounds invariant when the priority
rectangle is in bounds. -/
theorem InBounds_pushWindowAway (ws : List WindowData) (cid : String) (p : Rect)
    (hib : InBounds ws) (hp : rectInBounds p) : InBounds (pushWindowAway ws cid p) := by
  rcases pushWindowAway_cases ws cid p with ⟨_, heq⟩ | ⟨_, _, _, heq⟩ | ⟨wd, r, hf, hpt, heq⟩
  · rw [heq]; exact hib
  · rw [heq]; exact hib
  · rw [heq]
    exact InBounds_setRect ws cid r hib
      (pushTarget_inBounds (windowRect wd) p r hpt hp
        (hib wd (List.mem_of_find?_eq_some hf)))

/-- A conflict pass preserves the bounds invariant. -/
theorem InBounds_passConflicts (p : Rect) (hp : rectInBounds p) :
    ∀ (cids : List String) (ws : List WindowData), InBounds ws →
      InBounds (passConflicts ws p cids) := by
  intro cids
  induction cids with
  | nil => intro ws hib; exact hib
  | cons c cs ih =>
    intro ws hib
    rw [passConflicts_cons]
    exact ih _ (InBounds_pushWindowAway ws c p hib hp)

/-- The resolution loop preserves the bounds invariant. -/
theorem InBounds_resolveLoop (p : Rect) (pid : String) (hp : rectInBounds p) :
    ∀ (n : Nat) (ws : List WindowData), InBounds ws →
      InBounds (resolveLoop p pid n ws) := by
  intro n
  induction n with
  | zero => intro ws hib; exact hib
  | succ n ih =>
    intro ws hib
    rw [resolveLoop_succ]
    split
    · exact hib
    · exact ih _ (InBounds_passConflicts p hp _ ws hib)

/-- `resolveOverlaps` preserves the bounds invariant: the captured
priority rectangle belongs to a window of the (in-bounds) state. -/
theorem InBounds_resolveOverlaps (ws : List WindowData) (pid : String)
    (hib : InBounds ws) : InBounds (resolveOverlaps ws pid) := by
  cases hf : ws.find? (fun wd => wd.id == pid) with
  | none =>
    unfold resolveOverlaps
    rw [hf]
    exact hib
  | some pd =>
    have hres : resolveOverlaps ws pid = resolveLoop (windowRect pd) pid maxIterations ws := by
      unfold resolveOverlaps
      rw [hf]
    rw [hres]
    exact InBounds_resolveLoop (windowRect pd) pid
      (hib pd (List.mem_of_find?_eq_some hf)) maxIterations ws hib

/-- The origin returned by `findFreeSpot` keeps a `w×h` rectangle inside
the grid, for sizes that fit the grid: a scan hit is a candidate of the
loop ranges, and the `{0,0}` fallback also fits. -/
theorem findFreeSpot_inBounds (ws : List WindowData) (w h : Int)
    (hw0 : 0 ≤ w) (hw8 : w ≤ gridSize) (hh0 : 0 ≤ h) (hh8 : h ≤ gridSize) :
    0 ≤ (findFreeSpot ws w h).1 ∧ (findFreeSpot ws w h).1 + w ≤ gridSize ∧
    0 ≤ (findFreeSpot ws w h).2 ∧ (findFreeSpot ws w h).2 + h ≤ gridSize := by
  unfold findFreeSpot
  cases hf : (freeSpotCandidates w h).find? (isFreeAt ws w h) with
  | none =>
    simp only [Option.getD_none]
    simp only [gridSize] at *
    omega
  | some c =>
    simp only [Option.getD_some]
    have hmem := List.mem_of_find?_eq_some hf
    have := (mem_freeSpotCandidates w h c.1 c.2).mp (by simpa using hmem)
    simp only [gridSize] at *
    omega

/-- Caller-supplied `createWindow` options that respect the grid: the
(width, height) — defaulted to 4×4 — lie between `minWindowSize` and
`gridSize`, and any explicit coordinate keeps the rectangle inside the
grid.  The source never validates this; the amended claim C2 assumes it. -/
def validCreateOptions (opts : CreateOptions) : Prop :=
  minWindowSize ≤ opts.gridW.getD 4 ∧ opts.gridW.getD 4 ≤ gridSize ∧
  minWindowSize ≤ opts.gridH.getD 4 ∧ opts.gridH.getD 4 ≤ gridSize ∧
  (∀ x ∈ opts.gridX, 0 ≤ x ∧ x + opts.gridW.getD 4 ≤ gridSize) ∧
  (∀ y ∈ opts.gridY, 0 ≤ y ∧ y + opts.gridH.getD 4 ≤ gridSize)

instance : DecidablePred validCreateOptions := fun opts => by
  unfold validCreateOptions
  infer_instance

/-- `createWindow` with valid (or absent) options preserves the bounds
invariant: the free-spot scan or the validated explicit position places
the new window in bounds, and the closing `resolveOverlaps` preserves it. -/
theorem InBounds_createWindow (ws : List WindowData) (id : String) (opts : CreateOptions)
    (hib : InBounds ws) (hv : validCreateOptions opts) :
    InBounds (createWindow ws id opts) := by
  obtain ⟨hv1, hv2, hv3, hv4, hvx, hvy⟩ := hv
  unfold createWindow
  refine InBounds_resolveOverlaps _ id ?_
  intro wd1 hmem
  rcases List.mem_append.mp hmem with hold | hnew
  · exact hib wd1 hold
  · have hfs := findFreeSpot_inBounds ws (opts.gridW.getD 4) (opts.gridH.getD 4)
      (by unfold minWindowSize at hv1; omega) hv2
      (by unfold minWindowSize at hv3; omega) hv4
    rcases List.mem_singleton.mp hnew with rfl
    unfold rectInBounds windowRect
    cases hgx : opts.gridX with
    | some x =>
      cases hgy : opts.gridY with
      | some y =>
        have h1 := hvx x (by rw [hgx]; rfl)
        have h2 := hvy y (by rw [hgy]; rfl)
        simp only [hgx, hgy]
        refine ⟨h1.1, h2.1, h1.2, h2.2, hv1, hv3⟩
      | none =>
        have h1 := hvx x (by rw [hgx]; rfl)
        simp only [hgx, hgy, Option.getD_some, Option.getD_none]
        exact ⟨h1.1, hfs.2.2.1, h1.2, hfs.2.2.2, hv1, hv3⟩
    | none =>
      cases hgy : opts.gridY with
      | some y =>
        have h2 := hvy y (by rw [hgy]; rfl)
        simp only [hgx, hgy, Option.getD_some, Option.getD_none]
        exact ⟨hfs.1, h2.1, hfs.2.1, h2.2, hv1, hv3⟩
      | none =>
        simp only [hgx, hgy, Option.getD_none]
        exact ⟨hfs.1, hfs.2.2.1, hfs.2.1, hfs.2.2.2, hv1, hv3⟩

theorem InBounds_handleDrag (ws : List WindowData) (windowId : String)
    (startGridX startGridY gridDeltaX gridDeltaY : Int) (hib : InBounds ws) :
    InBounds (handleDrag ws windowId startGridX startGridY gridDeltaX gridDeltaY) := by
  unfold handleDrag
  cases hf : ws.find? (fun wd => wd.id == windowId) with
  | none => exact hib
  | some wd =>
    have hwd := hib wd (List.mem_of_find?_eq_some hf)
    split
    · rename_i heq
      exact Option.noConfusion heq
    · rename_i wd2 heq
      obtain rfl : wd = wd2 := Option.some.inj heq
      dsimp only
      split
      · refine InBounds_resolveOverlaps _ windowId (InBounds_setRect ws windowId _ hib ?_)
        unfold rectInBounds windowRect at *
        simp only [gridSize, minWindowSize] at *
        omega
      · exact hib

/-- One resize step preserves the bounds invariant, given that the
captured start rectangle was in bounds (it is captured from the window's
own fields at `startResize`). -/
theorem InBounds_handleResize (ws : List WindowData) (windowId : String) (dir : ResizeDir)
    (startGridX startGridY startGridW startGridH gridDeltaX gridDeltaY : Int)
    (hib : InBounds ws)
    (hs : rectInBounds ⟨startGridX, startGridY, startGridW, startGridH⟩) :
    InBounds (handleResize ws windowId dir startGridX startGridY startGridW startGridH
      gridDeltaX gridDeltaY) := by
  unfold handleResize
  cases hf : ws.find? (fun wd => wd.id == windowId) with
  | none => exact hib
  | some wd =>
    split
    · rename_i heq
      exact Option.noConfusion heq
    · rename_i wd2 heq
      obtain rfl : wd = wd2 := Option.some.inj heq
      dsimp only
      split_ifs <;>
        first
          | exact hib
          | (refine InBounds_resolveOverlaps _ windowId (InBounds_setRect ws windowId _ hib ?_)
             unfold rectInBounds at hs ⊢
             simp only [gridSize, minWindowSize] at *
             omega)

/-- `minimizeWindow` preserves the bounds invariant (no geometry change). -/
theorem InBounds_minimizeWindow (ws : List WindowData) (windowId : String)
    (hib : InBounds ws) : InBounds (minimizeWindow ws windowId) := by
  intro wd1 hmem
  rcases List.mem_map.mp hmem with ⟨wd, hmemw, heq⟩
  by_cases hc : wd.id = windowId
  · rw [← heq, if_pos (by simpa using hc)]
    exact hib wd hmemw
  · rw [← heq, if_neg (by simpa using hc)]
    exact hib wd hmemw

/-- `restoreWindow` preserves the bounds invariant. -/
theorem InBounds_restoreWindow (ws : List WindowData) (windowId : String)
    (hib : InBounds ws) : InBounds (restoreWindow ws windowId) := by
  unfold restoreWindow
  cases hf : ws.find? (fun wd => wd.id == windowId) with
  | none => exact hib
  | some wd =>
    show InBounds (resolveOverlaps
      (ws.map fun wd => if wd.id == windowId then { wd with minimized := false } else wd)
      windowId)
    refine InBounds_resolveOverlaps _ windowId ?_
    intro wd1 hmem
    rcases List.mem_map.mp hmem with ⟨wd2, hmemw, heq⟩
    by_cases hc : wd2.id = windowId
    · rw [← heq, if_pos (by simpa using hc)]
      exact hib wd2 hmemw
    · rw [← heq, if_neg (by simpa using hc)]
      exact hib wd2 hmemw

/-- `closeWindow` preserves the bounds invariant. -/
theorem InBounds_closeWindow (ws : List WindowData) (windowId : String)
    (hib : InBounds ws) : InBounds (closeWindow ws windowId) := by
  intro wd1 hmem
  exact hib wd1 (List.mem_of_mem_filter hmem)

/-- Claim C2, amended: every operation preserves the bounds invariant
(`0 ≤ x`, `0 ≤ y`, `x+w ≤ 8`, `y+h ≤ 8`, `w ≥ 2`, `h ≥ 2` for every
window), and `createWindow` establishes it for the new window — provided
any caller-supplied explicit `gridX/gridY/gridW/gridH` options are
themselves within the grid (the source performs no validation of them,
see the counterexample; with no options the default 4×4 auto-placement
is always in bounds).  The resize step assumes its captured start
rectangle was in bounds, as it is when captured from an in-bounds state. -/
theorem operations_preserve_bounds (ws : List WindowData) (hib : InBounds ws) :
    (∀ windowId startGridX startGridY gridDeltaX gridDeltaY,
      InBounds (handleDrag ws windowId startGridX startGridY gridDeltaX gridDeltaY)) ∧
    (∀ windowId dir startGridX startGridY startGridW startGridH gridDeltaX gridDeltaY,
      rectInBounds ⟨startGridX, startGridY, startGridW, startGridH⟩ →
      InBounds (handleResize ws windowId dir startGridX startGridY startGridW startGridH
        gridDeltaX gridDeltaY)) ∧
    (∀ id opts, validCreateOptions opts → InBounds (createWindow ws id opts)) ∧
    (∀ windowId, InBounds (resolveOverlaps ws windowId)) ∧
    (∀ windowId, InBounds (minimizeWindow ws windowId)) ∧
    (∀ windowId, InBounds (restoreWindow ws windowId)) ∧
    (∀ windowId, InBounds (closeWindow ws windowId)) :=
  ⟨fun windowId sx sy dx dy => InBounds_handleDrag ws windowId sx sy dx dy hib,
   fun windowId dir sx sy sw sh dx dy hs =>
     InBounds_handleResize ws windowId dir sx sy sw sh dx dy hib hs,
   fun id opts hv => InBounds_createWindow ws id opts hib hv,
   fun windowId => InBounds_resolveOverlaps ws windowId hib,
   fun windowId => InBounds_minimizeWindow ws windowId hib,
   fun windowId => InBounds_restoreWindow ws windowId hib,
   fun windowId => InBounds_closeWindow ws windowId hib⟩

/-- Witness for `operations_preserve_bounds` on a concrete one-window
state: a drag, a resize, a creation with valid explicit options, a
resolve, a minimize, a restore and a close all stay in bounds. -/
theorem operations_preserve_bounds_witness :
    InBounds (handleDrag [⟨"A", 0, 0, 4, 4, false⟩] "A" 0 0 2 1) ∧
    InBounds (handleResize [⟨"A", 0, 0, 4, 4, false⟩] "A" ⟨true, false, false, false⟩
      0 0 4 4 3 0) ∧
    InBounds (createWindow [⟨"A", 0, 0, 4, 4, false⟩] "B" ⟨some 4, some 0, some 4, some 4⟩) ∧
    InBounds (resolveOverlaps [⟨"A", 0, 0, 4, 4, false⟩] "A") ∧
    InBounds (minimizeWindow [⟨"A", 0, 0, 4, 4, false⟩] "A") ∧
    InBounds (restoreWindow [⟨"A", 0, 0, 4, 4, false⟩] "A") ∧
    InBounds (closeWindow [⟨"A", 0, 0, 4, 4, false⟩] "A") :=
  ⟨(operations_preserve_bounds [⟨"A", 0, 0, 4, 4, false⟩] (by decide)).1 "A" 0 0 2 1,
   (operations_preserve_bounds [⟨"A", 0, 0, 4, 4, false⟩] (by decide)).2.1 "A"
     ⟨true, false, false, false⟩ 0 0 4 4 3 0 (by decide),
   (operations_preserve_bounds [⟨"A", 0, 0, 4, 4, false⟩] (by decide)).2.2.1 "B"
     ⟨some 4, some 0, some 4, some 4⟩ (by decide),
   (operations_preserve_bounds [⟨"A", 0, 0, 4, 4, false⟩] (by decide)).2.2.2.1 "A",
   (operations_preserve_bounds [⟨"A", 0, 0, 4, 4, false⟩] (by decide)).2.2.2.2.1 "A",
   (operations_preserve_bounds [⟨"A", 0, 0, 4, 4, false⟩] (by decide)).2.2.2.2.2.1 "A",
   (operations_preserve_bounds [⟨"A", 0, 0, 4, 4, false⟩] (by decide)).2.2.2.2.2.2 "A"⟩
